import Mathlib

/-!
Verification of the asteroids game core (src/asteroids.py) against its
natural-language specification.

Shallow embedding conventions:
* pygame `Vector2` values (positions, velocities, directions) become pairs of
  real numbers; Python floats are idealized as reals.
* Python `int` values (radii, scores, ages, random draws) become `Int`/`Nat`.
* The global random source (`random.choice`, `random.randint`) is modelled as
  an explicit stream of naturals threaded through every function that draws
  randomness; `randint a b` maps a draw uniformly-shaped into `[a, b]` and
  `choice` indexes into the list.  `choice` on an empty list raises
  `IndexError` in Python; here it returns `none`, and every caller propagates
  the failure as `none`.
* Mutating methods become functions returning the updated object; the
  `game_loop` passes over the bullet and rock lists become structurally
  recursive functions over those lists, preserving the source's iteration
  order, accumulator updates and early exits.
-/

namespace Asteroids

/-- Maximum X (horizontal) coordinate (`MAX_X = 800`). -/
def MAX_X : ℤ := 800

/-- Maximum Y (vertical) coordinate (`MAX_Y = 600`). -/
def MAX_Y : ℤ := 600

/-- Maximum speed of the ship (`MAX_SHIP_SPEED = 10`). -/
def MAX_SHIP_SPEED : ℝ := 10

/-- Speed of ship bullets (`BULLET_SPEED = 15`). -/
def BULLET_SPEED : ℝ := 15

/-- Length of bullet sprite (`BULLET_LENGTH = 10`). -/
def BULLET_LENGTH : ℝ := 10

/-- Maximum time a bullet may stay alive (`MAX_BULLET_AGE = 15`). -/
def MAX_BULLET_AGE : ℕ := 15

/-- Minimum rock radius (`MIN_ROCK_RADIUS = 20`). -/
def MIN_ROCK_RADIUS : ℤ := 20

/-- Maximum rock radius (`MAX_ROCK_RADIUS = 80`). -/
def MAX_ROCK_RADIUS : ℤ := 80

/-- Difference in radius for each rock size (`ROCK_RADIUS_SIZE_STEP = 10`). -/
def ROCK_RADIUS_SIZE_STEP : ℤ := 10

/-- Minimum speed of a rock (`MIN_ROCK_SPEED = 1`). -/
def MIN_ROCK_SPEED : ℤ := 1

/-- Maximum speed of a rock (`MAX_ROCK_SPEED = 4`). -/
def MAX_ROCK_SPEED : ℤ := 4

/-- Minimum number of rocks on the screen before we spawn more
(`MIN_NUM_ROCKS = 5`). -/
def MIN_NUM_ROCKS : ℕ := 5

/-- Minimum number of new rocks spawned when a rock explodes
(`MIN_SPAWN_EXPLODE_ROCKS = 2`). -/
def MIN_SPAWN_EXPLODE_ROCKS : ℤ := 2

/-- Maximum number of new rocks spawned when a rock explodes
(`MAX_SPAWN_EXPLODE_ROCKS = 3`). -/
def MAX_SPAWN_EXPLODE_ROCKS : ℤ := 3

/-- A 2D vector, standing for pygame `Vector2`. -/
abbrev Vec := ℝ × ℝ

/-- The stream of raw random draws: an infinite sequence of naturals together
with a cursor.  Each primitive draw consumes one element.  Quantifying over
all streams quantifies over all possible behaviours of Python's `random`. -/
structure RNG where
  stream : ℕ → ℕ
  idx : ℕ

/-- Consume one raw draw from the stream. -/
def RNG.take (g : RNG) : ℕ × RNG :=
  (g.stream g.idx, ⟨g.stream, g.idx + 1⟩)

/-- Model of Python `random.randint(lo, hi)`: an arbitrary value of `[lo, hi]`
(both ends included), obtained by reducing one raw draw modulo the size of the
interval. -/
def randint (lo hi : ℤ) (g : RNG) : ℤ × RNG :=
  let (v, g') := g.take
  (lo + (v : ℤ) % (hi - lo + 1), g')

/-- Model of Python `random.choice(l)`: an arbitrary element of `l`, selected
by reducing one raw draw modulo the length of `l`.  On an empty list Python
raises `IndexError`; here that is `none`. -/
def choice {α : Type} (l : List α) (g : RNG) : Option α × RNG :=
  let (v, g') := g.take
  (l.get? (v % l.length), g')

/-- Model of Python `range(start, stop, step)` for a positive `step`:
the list `start, start + step, ...` of all such values below `stop`. -/
def pyRange (start stop step : ℤ) : List ℤ :=
  (List.range (((stop - start + step - 1) / step).toNat)).map
    (fun i : ℕ => start + step * (i : ℤ))

/-- `score_hit` (src/asteroids.py lines 496-499): the score for a bullet
hitting a rock of the given radius. -/
def score_hit (radius : ℤ) : ℤ :=
  (MAX_ROCK_RADIUS * 2) - radius

/-- A rock (`Rock`, src/asteroids.py lines 154-178): position, velocity,
radius and colour.  `draw` is rendering-only and not modelled. -/
structure Rock where
  position : Vec
  velocity : Vec
  radius : ℤ
  colour : ℤ × ℤ × ℤ

/-- A bullet (`Bullet`, src/asteroids.py lines 181-228): position, velocity,
normalized direction and age.  `draw` is rendering-only and not modelled. -/
structure Bullet where
  position : Vec
  velocity : Vec
  direction : Vec
  age : ℕ

/-- `Bullet.time_step` (src/asteroids.py lines 215-217): increment the age of
the bullet by one. -/
def Bullet.time_step (b : Bullet) : Bullet :=
  { b with age := b.age + 1 }

/-- `Bullet.alive` (src/asteroids.py lines 220-228): `False` when the age
exceeds `MAX_BULLET_AGE`, `True` otherwise. -/
def Bullet.alive (b : Bullet) : Bool :=
  if b.age > MAX_BULLET_AGE then false else true

/-- Scalar multiple of a vector, standing for pygame `Vector2 * scalar`. -/
def smul (k : ℝ) (v : Vec) : Vec :=
  (k * v.1, k * v.2)

/-- pygame `Vector2.rotate(angle)`: rotate a vector by `angle` degrees. -/
noncomputable def rotateDeg (v : Vec) (angle : ℝ) : Vec :=
  let θ := angle * (Real.pi / 180)
  (v.1 * Real.cos θ - v.2 * Real.sin θ, v.1 * Real.sin θ + v.2 * Real.cos θ)

/-- pygame `Vector2.length()`: the Euclidean magnitude of a vector. -/
noncomputable def vecLength (v : Vec) : ℝ :=
  Real.sqrt (v.1 ^ 2 + v.2 ^ 2)

/-- `GameObject.move` (src/asteroids.py lines 134-151), as a pure function of
position and velocity: add the velocity, then wrap each axis independently
(at or above the bound resets to 0, below 0 resets to the bound minus 1). -/
noncomputable def moveWrap (position velocity : Vec) : Vec :=
  let p := position + velocity
  let x := if p.1 ≥ (MAX_X : ℝ) then 0 else if p.1 < 0 then (MAX_X : ℝ) - 1 else p.1
  let y := if p.2 ≥ (MAX_Y : ℝ) then 0 else if p.2 < 0 then (MAX_Y : ℝ) - 1 else p.2
  (x, y)

/-- `is_inside_circle` (src/asteroids.py lines 342-345): the Euclidean
distance (`Vector2.distance_to`) from the point to the center is at most the
radius. -/
def is_inside_circle (point center : Vec) (radius : ℝ) : Prop :=
  Real.sqrt ((point.1 - center.1) ^ 2 + (point.2 - center.2) ^ 2) ≤ radius

/-- A space ship (`SpaceShip`, src/asteroids.py lines 231-317): position,
velocity, rotation in degrees and triangle geometry.  `draw` is
rendering-only and not modelled. -/
structure SpaceShip where
  position : Vec
  velocity : Vec
  rotation : ℝ
  size_major : ℝ
  size_minor : ℝ

/-- `SpaceShip.accelerate` (src/asteroids.py lines 283-304): add the thrust
vector (the forward unit vector scaled by `amount`) to the velocity; if
`speed`, computed as the length of the CURRENT velocity, exceeds
`MAX_SHIP_SPEED`, scale the new velocity by `MAX_SHIP_SPEED / speed`. -/
noncomputable def SpaceShip.accelerate (ship : SpaceShip) (amount : ℝ) : SpaceShip :=
  let accel_vector := smul amount (rotateDeg (1, 0) ship.rotation)
  let new_velocity := ship.velocity + accel_vector
  let speed := vecLength ship.velocity
  if speed > MAX_SHIP_SPEED then
    { ship with velocity := smul (MAX_SHIP_SPEED / speed) new_velocity }
  else
    { ship with velocity := new_velocity }

/-- `SpaceShip.points` (src/asteroids.py lines 307-317): the three corners of
the ship triangle, at angular offsets 0, 120 and 240 degrees from the ship's
rotation (major axis for the first, minor axis for the others). -/
noncomputable def SpaceShip.points (ship : SpaceShip) : Vec × Vec × Vec :=
  (ship.position + rotateDeg (ship.size_major, 0) ship.rotation,
   ship.position + rotateDeg (ship.size_minor, 0) (ship.rotation + 120),
   ship.position + rotateDeg (ship.size_minor, 0) (ship.rotation + 240))

/-- `ship_hit_rock` (src/asteroids.py lines 329-339): the ship hits the rock
when any of the three triangle corners is inside the rock's circle. -/
noncomputable def ship_hit_rock (ship : SpaceShip) (rock : Rock) : Prop :=
  is_inside_circle ship.points.1 rock.position (rock.radius : ℝ) ∨
  is_inside_circle ship.points.2.1 rock.position (rock.radius : ℝ) ∨
  is_inside_circle ship.points.2.2 rock.position (rock.radius : ℝ)

/-- `bullet_hit_rock` (src/asteroids.py lines 320-326): the bullet's end
position (its tip, `BULLET_LENGTH` along its direction) is inside the rock's
circle. -/
noncomputable def bullet_hit_rock (bullet : Bullet) (rock : Rock) : Prop :=
  let end_pos := bullet.position + smul BULLET_LENGTH bullet.direction
  is_inside_circle end_pos rock.position (rock.radius : ℝ)

/-- `Bullet.move`: `GameObject.move` applied to a bullet. -/
noncomputable def Bullet.move (b : Bullet) : Bullet :=
  { b with position := moveWrap b.position b.velocity }

/-- `Rock.move`: `GameObject.move` applied to a rock. -/
noncomputable def Rock.move (r : Rock) : Rock :=
  { r with position := moveWrap r.position r.velocity }

/-- `random_colour` (src/asteroids.py lines 348-354): three bounded random
channel intensities. -/
def random_colour (g : RNG) : (ℤ × ℤ × ℤ) × RNG :=
  let (r, g1) := randint 100 255 g
  let (gr, g2) := randint 50 150 g1
  let (b, g3) := randint 50 100 g2
  ((r, gr, b), g3)

/-- `spawn_rock` (src/asteroids.py lines 357-373): choose a radius from
`range(min_radius, max_radius, ROCK_RADIUS_SIZE_STEP)` (an `IndexError`,
modelled as `none`, when that range is empty), then a random angle, speed and
colour, and build the rock at the given position. -/
noncomputable def spawn_rock (position : Vec) (min_radius max_radius : ℤ)
    (g : RNG) : Option Rock × RNG :=
  match choice (pyRange min_radius max_radius ROCK_RADIUS_SIZE_STEP) g with
  | (none, g1) => (none, g1)
  | (some radius, g1) =>
    let (angle, g2) := randint 0 359 g1
    let direction_vector := rotateDeg (1, 0) (angle : ℝ)
    let (speed, g3) := randint MIN_ROCK_SPEED MAX_ROCK_SPEED g2
    let velocity := smul (speed : ℝ) direction_vector
    let (colour, g4) := random_colour g3
    (some ⟨position, velocity, radius, colour⟩, g4)

/-- The `for _count in range(num_new_rocks)` loop of `spawn_rocks_explosion`
(src/asteroids.py lines 424-426): spawn the given number of rocks at one
position with one radius range, propagating a spawn failure. -/
noncomputable def spawn_rock_list (position : Vec) (min_radius max_radius : ℤ) :
    ℕ → RNG → Option (List Rock) × RNG
  | 0, g => (some [], g)
  | n + 1, g =>
    match spawn_rock position min_radius max_radius g with
    | (none, g1) => (none, g1)
    | (some r, g1) =>
      match spawn_rock_list position min_radius max_radius n g1 with
      | (none, g2) => (none, g2)
      | (some rs, g2) => (some (r :: rs), g2)

/-- `spawn_rocks_explosion` (src/asteroids.py lines 412-427): spawn
`randint(MIN_SPAWN_EXPLODE_ROCKS, MAX_SPAWN_EXPLODE_ROCKS)` new rocks at the
exploding rock's position, with radii drawn from
`range(MIN_ROCK_RADIUS, exploding_rock.radius, ROCK_RADIUS_SIZE_STEP)`. -/
noncomputable def spawn_rocks_explosion (exploding_rock : Rock) (g : RNG) :
    Option (List Rock) × RNG :=
  let (num_new_rocks, g1) :=
    randint MIN_SPAWN_EXPLODE_ROCKS MAX_SPAWN_EXPLODE_ROCKS g
  spawn_rock_list exploding_rock.position MIN_ROCK_RADIUS exploding_rock.radius
    num_new_rocks.toNat g1

/-- First loop of `spawn_offscreen_rocks` (src/asteroids.py lines 392-399):
rocks off the negative-X side, `x = -MAX_ROCK_RADIUS / 2`, random on-screen
Y. -/
noncomputable def spawn_offscreen_x : ℕ → RNG → Option (List Rock) × RNG
  | 0, g => (some [], g)
  | n + 1, g =>
    let (y_pos, g1) := randint 0 (MAX_Y - 1) g
    match spawn_rock (-(MAX_ROCK_RADIUS : ℝ) / 2, (y_pos : ℝ))
        MIN_ROCK_RADIUS MAX_ROCK_RADIUS g1 with
    | (none, g2) => (none, g2)
    | (some r, g2) =>
      match spawn_offscreen_x n g2 with
      | (none, g3) => (none, g3)
      | (some rs, g3) => (some (r :: rs), g3)

/-- Second loop of `spawn_offscreen_rocks` (src/asteroids.py lines 401-408):
rocks off the negative-Y side, `y = -MAX_ROCK_RADIUS / 2`, random on-screen
X. -/
noncomputable def spawn_offscreen_y : ℕ → RNG → Option (List Rock) × RNG
  | 0, g => (some [], g)
  | n + 1, g =>
    let (x_pos, g1) := randint 0 (MAX_X - 1) g
    match spawn_rock ((x_pos : ℝ), -(MAX_ROCK_RADIUS : ℝ) / 2)
        MIN_ROCK_RADIUS MAX_ROCK_RADIUS g1 with
    | (none, g2) => (none, g2)
    | (some r, g2) =>
      match spawn_offscreen_y n g2 with
      | (none, g3) => (none, g3)
      | (some rs, g3) => (some (r :: rs), g3)

/-- `spawn_offscreen_rocks` (src/asteroids.py lines 376-409): `num_rocks / 2`
rocks enter from the negative-X edge, the remaining `num_rocks - num_rocks / 2`
from the negative-Y edge (the loop bounds are `range(0, num_rocks // 2)` and
`range(num_rocks // 2, num_rocks)`). -/
noncomputable def spawn_offscreen_rocks (num_rocks : ℕ) (g : RNG) :
    Option (List Rock) × RNG :=
  match spawn_offscreen_x (num_rocks / 2) g with
  | (none, g1) => (none, g1)
  | (some xs, g1) =>
    match spawn_offscreen_y (num_rocks - num_rocks / 2) g1 with
    | (none, g2) => (none, g2)
    | (some ys, g2) => (some (xs ++ ys), g2)

/-- The rock-maintenance step of `game_loop` (src/asteroids.py lines
561-565): when fewer than `MIN_NUM_ROCKS` rocks are alive, extend the list
with `MIN_NUM_ROCKS - len(rocks)` off-screen rocks. -/
noncomputable def maintain_rocks (rocks : List Rock) (g : RNG) :
    Option (List Rock) × RNG :=
  if rocks.length < MIN_NUM_ROCKS then
    match spawn_offscreen_rocks (MIN_NUM_ROCKS - rocks.length) g with
    | (none, g1) => (none, g1)
    | (some new_rocks, g1) => (some (rocks ++ new_rocks), g1)
  else (some rocks, g)

/-- A rock whose radius is exactly the minimum, and a concrete random
stream, used to exhibit the failing fragmentation. -/
def rockMin : Rock := ⟨(100, 100), (0, 0), MIN_ROCK_RADIUS, (200, 100, 80)⟩

/-- A fixed random stream of zeros. -/
def gZero : RNG := ⟨fun _ => 0, 0⟩

/-- A rock of radius 40 used as a concrete fragmentation parent. -/
def rockForty : Rock := ⟨(50, 60), (1, 2), 40, (150, 80, 60)⟩

/-- The per-frame state mutated by the bullet pass of `game_loop`
(src/asteroids.py lines 567-615): the score, the live rocks, the rocks
staged for addition (`spawned_rocks`) and the bullets kept for the next
frame (`alive_bullets`). -/
structure FrameState where
  score : ℤ
  rocks : List Rock
  spawned_rocks : List Rock
  alive_bullets : List Bullet

open Classical in

/-- The inner `for rock in rocks` loop of the bullet pass (src/asteroids.py
lines 585-602) for one moved bullet: scan the rocks in order with the `hit`
flag; the first rock hit while the flag is clear is scored and dropped from
the alive list (fragmenting when above the minimum radius), every other rock
is appended to the alive list unchanged. -/
noncomputable def rockScan (bullet : Bullet) :
    List Rock → Bool → ℤ → List Rock → RNG →
      Option (List Rock × Bool × ℤ × List Rock) × RNG
  | [], hit, score, spawned, g => (some ([], hit, score, spawned), g)
  | rock :: rest, hit, score, spawned, g =>
    if ¬hit ∧ bullet_hit_rock bullet rock then
      if rock.radius > MIN_ROCK_RADIUS then
        match spawn_rocks_explosion rock g with
        | (none, g1) => (none, g1)
        | (some frags, g1) =>
          match rockScan bullet rest true (score + score_hit rock.radius)
              (spawned ++ frags) g1 with
          | (none, g2) => (none, g2)
          | (some out, g2) => (some out, g2)
      else
        match rockScan bullet rest true (score + score_hit rock.radius)
            spawned g with
        | (none, g2) => (none, g2)
        | (some out, g2) => (some out, g2)
    else
      match rockScan bullet rest hit score spawned g with
      | (none, g2) => (none, g2)
      | (some (alive, h2, s2, sp2), g2) => (some (rock :: alive, h2, s2, sp2), g2)

/-- One iteration of the `for bullet in bullets` loop (src/asteroids.py
lines 577-610): age the bullet; when still alive, move it, scan the rocks,
take the surviving rocks as the new live set and retain the bullet only if
it hit nothing; an expired bullet changes nothing and is dropped. -/
noncomputable def processBullet (s : FrameState) (bullet : Bullet) (g : RNG) :
    Option FrameState × RNG :=
  if (bullet.time_step).alive then
    match rockScan (bullet.time_step.move) s.rocks false s.score
        s.spawned_rocks g with
    | (none, g1) => (none, g1)
    | (some (alive_rocks, hit, score1, spawned1), g1) =>
      (some ⟨score1, alive_rocks, spawned1,
        if hit then s.alive_bullets
        else s.alive_bullets ++ [bullet.time_step.move]⟩, g1)
  else
    (some s, g)

/-- The whole bullet pass (src/asteroids.py lines 577-610): process each
bullet in order, each seeing the rock list left by its predecessor. -/
noncomputable def bulletLoop :
    FrameState → List Bullet → RNG → Option FrameState × RNG
  | s, [], g => (some s, g)
  | s, b :: bs, g =>
    match processBullet s b g with
    | (none, g1) => (none, g1)
    | (some s1, g1) => bulletLoop s1 bs g1

open Classical in

/-- The rock phase of `game_loop` (src/asteroids.py lines 619-626): move
each rock in order; as soon as a moved rock collides with the ship, return
the current score (`ENDED`), leaving the remaining rocks unmoved. -/
noncomputable def rockPhase (ship : SpaceShip) (score : ℤ) :
    List Rock → List Rock × Option ℤ
  | [] => ([], none)
  | rock :: rest =>
    if ship_hit_rock ship rock.move then
      (rock.move :: rest, some score)
    else
      (rock.move :: (rockPhase ship score rest).1, (rockPhase ship score rest).2)

/-- The total score value of a list of rocks: the sum of the per-rock hit
scores.  Specification vocabulary for the score accounting of the bullet
pass. -/
def sumScores (l : List Rock) : ℤ :=
  (l.map (fun r => score_hit r.radius)).sum

/-- A young bullet flying right, used as a concrete witness input. -/
def bulletW : Bullet := ⟨(100, 300), (15, 0), (1, 0), 0⟩

/-- A minimum-size rock placed exactly at the witness bullet's tip after its
move. -/
def rockHitW : Rock := ⟨(125, 300), (2, 3), 20, (120, 60, 60)⟩

/-- A rock 50 units from the witness bullet's tip: a miss. -/
def rockMissW : Rock := ⟨(125, 250), (0, 0), 20, (110, 70, 70)⟩

/-- A frame in which the witness bullet misses the first rock and hits the
second. -/
def frameW : FrameState := ⟨0, [rockMissW, rockHitW], [], []⟩

/-- A frame in which the witness bullet hits nothing. -/
def frameMissW : FrameState := ⟨5, [rockMissW], [], []⟩

/-- A bullet past its maximum age. -/
def bulletOld : Bullet := ⟨(10, 10), (15, 0), (1, 0), 20⟩

/-- A frame used to run the bullet pass on the expired bullet. -/
def frameTen : FrameState := ⟨7, [rockForty], [], []⟩

/-- A ship of zero size at the arena center: all three of its triangle
corners coincide with its position. -/
def shipW : SpaceShip := ⟨(400, 300), (0, 0), 0, 0, 0⟩

/-- A motionless rock lying on the witness ship's position. -/
def rockAtShip : Rock := ⟨(400, 300), (0, 0), 20, (100, 100, 100)⟩

/-- A motionless rock far away from the witness ship. -/
def rockFarW : Rock := ⟨(100, 100), (0, 0), 20, (100, 110, 90)⟩

/-- A rock placed after the colliding one in iteration order. -/
def rockPostW : Rock := ⟨(700, 500), (1, 1), 30, (100, 120, 95)⟩

/-- For a non-negative radius, membership in a circle can be checked on
squared distances, avoiding the square root. -/
theorem is_inside_circle_iff_sq (point center : Vec) (radius : ℝ)
    (hr : 0 ≤ radius) :
    is_inside_circle point center radius ↔
      (point.1 - center.1) ^ 2 + (point.2 - center.2) ^ 2 ≤ radius ^ 2 := by
  unfold is_inside_circle
  constructor
  · intro h
    have hd : 0 ≤ (point.1 - center.1) ^ 2 + (point.2 - center.2) ^ 2 := by positivity
    calc (point.1 - center.1) ^ 2 + (point.2 - center.2) ^ 2
        = Real.sqrt ((point.1 - center.1) ^ 2 + (point.2 - center.2) ^ 2) ^ 2 :=
          (Real.sq_sqrt hd).symm
      _ ≤ radius ^ 2 := by
          have := Real.sqrt_nonneg ((point.1 - center.1) ^ 2 + (point.2 - center.2) ^ 2)
          nlinarith
  · intro h
    calc Real.sqrt ((point.1 - center.1) ^ 2 + (point.2 - center.2) ^ 2)
        ≤ Real.sqrt (radius ^ 2) := Real.sqrt_le_sqrt h
      _ = radius := Real.sqrt_sq hr

/-- C4: `move` wraps each axis independently: a coordinate at or above the
bound becomes 0, one below 0 becomes the bound minus 1; consequently the
resulting position always lies in `[0, MAX_X) x [0, MAX_Y)`. -/
theorem moveWrap_wraps_and_in_bounds (position velocity : Vec) :
    (position.1 + velocity.1 ≥ (MAX_X : ℝ) → (moveWrap position velocity).1 = 0) ∧
    (position.1 + velocity.1 < 0 → (moveWrap position velocity).1 = (MAX_X : ℝ) - 1) ∧
    (position.2 + velocity.2 ≥ (MAX_Y : ℝ) → (moveWrap position velocity).2 = 0) ∧
    (position.2 + velocity.2 < 0 → (moveWrap position velocity).2 = (MAX_Y : ℝ) - 1) ∧
    0 ≤ (moveWrap position velocity).1 ∧ (moveWrap position velocity).1 < (MAX_X : ℝ) ∧
    0 ≤ (moveWrap position velocity).2 ∧ (moveWrap position velocity).2 < (MAX_Y : ℝ) := by
  have hx : (0 : ℝ) < (MAX_X : ℤ) := by norm_num [MAX_X]
  have hy : (0 : ℝ) < (MAX_Y : ℤ) := by norm_num [MAX_Y]
  unfold moveWrap
  refine ⟨fun h => by simp [Prod.fst_add, h], fun h => ?_, fun h => ?_, fun h => ?_, ?_, ?_, ?_, ?_⟩
  · have hnot : ¬ (position.1 + velocity.1 ≥ (MAX_X : ℝ)) := by
      push_neg; linarith
    simp [Prod.fst_add, hnot, h]
  · simp [Prod.snd_add, h]
  · have hnot : ¬ (position.2 + velocity.2 ≥ (MAX_Y : ℝ)) := by
      push_neg; linarith
    simp [Prod.snd_add, hnot, h]
  all_goals
    simp only [Prod.fst_add, Prod.snd_add]
    split_ifs with h1 h2 <;> push_neg at * <;> first | linarith | norm_num [MAX_X, MAX_Y]

/-- Witness for C4 at position `(790, 5)` with velocity `(20, -10)`: the x
coordinate overflows the right edge and wraps to 0, the y coordinate drops
below 0 and wraps to `MAX_Y - 1 = 599`. -/
theorem moveWrap_wraps_and_in_bounds_witness :
    (moveWrap (790, 5) (20, -10)).1 = 0 ∧
    (moveWrap (790, 5) (20, -10)).2 = (MAX_Y : ℝ) - 1 ∧
    (moveWrap (-3, 595) (2, 10)).1 = (MAX_X : ℝ) - 1 ∧
    (moveWrap (-3, 595) (2, 10)).2 = 0 :=
  ⟨(moveWrap_wraps_and_in_bounds (790, 5) (20, -10)).1 (by norm_num [MAX_X]),
   ((moveWrap_wraps_and_in_bounds (790, 5) (20, -10)).2.2.2.1) (by norm_num),
   ((moveWrap_wraps_and_in_bounds (-3, 595) (2, 10)).2.1) (by norm_num),
   ((moveWrap_wraps_and_in_bounds (-3, 595) (2, 10)).2.2.1) (by norm_num [MAX_Y])⟩

/-- C1: counter-evidence.  `accelerate` caps using the speed of the velocity
BEFORE the thrust is added (line 297 of src/asteroids.py computes
`self.velocity.length()`, not `new_velocity.length()`), so a ship already at
the maximum speed 10 that thrusts forward ends with speed 11.  The method's
own docstring says the maximum speed cannot be exceeded, so this is a code
bug rather than a spec error. -/
theorem accelerate_exceeds_max_speed :
    vecLength ((SpaceShip.accelerate ⟨(400, 300), (10, 0), 0, 20, 10⟩ 1).velocity) =
      MAX_SHIP_SPEED + 1 ∧ MAX_SHIP_SPEED < MAX_SHIP_SPEED + 1 := by
  have hrot : rotateDeg (1, 0) (0 : ℝ) = (1, 0) := by
    simp [rotateDeg]
  have hlen : vecLength ((10 : ℝ), (0 : ℝ)) = 10 := by
    unfold vecLength
    norm_num
    rw [show (100 : ℝ) = 10 ^ 2 by norm_num, Real.sqrt_sq (by norm_num)]
  constructor
  · unfold SpaceShip.accelerate
    simp only [hrot, hlen, smul, MAX_SHIP_SPEED]
    norm_num
    unfold vecLength
    norm_num
    rw [show (121 : ℝ) = 11 ^ 2 by norm_num, Real.sqrt_sq (by norm_num)]
  · norm_num [MAX_SHIP_SPEED]

/-- Every element of `pyRange start stop step` (positive `step`) has the form
`start + step * k` and lies in `[start, stop)`. -/
theorem mem_pyRange {start stop step x : ℤ} (hstep : 0 < step)
    (hx : x ∈ pyRange start stop step) :
    ∃ k : ℕ, x = start + step * k ∧ start ≤ x ∧ x < stop := by
  unfold pyRange at hx
  rw [List.mem_map] at hx
  obtain ⟨i, hi, hix⟩ := hx
  rw [List.mem_range] at hi
  have hi' : (i : ℤ) < (stop - start + step - 1) / step := by omega
  have hdm : step * ((stop - start + step - 1) / step) ≤ stop - start + step - 1 := by
    have h1 := Int.ediv_add_emod (stop - start + step - 1) step
    have h2 := Int.emod_nonneg (stop - start + step - 1) (by omega : step ≠ 0)
    linarith
  have hmul : step * ((i : ℤ) + 1) ≤ step * ((stop - start + step - 1) / step) :=
    mul_le_mul_of_nonneg_left (by omega) (le_of_lt hstep)
  have hexp : step * ((i : ℤ) + 1) = step * (i : ℤ) + step := by ring
  have hstepi : 0 ≤ step * (i : ℤ) := mul_nonneg (le_of_lt hstep) (by positivity)
  exact ⟨i, hix.symm, by linarith, by linarith⟩

/-- The length of `pyRange` is the rounded-up size of the interval divided by
the step. -/
theorem pyRange_length (start stop step : ℤ) :
    (pyRange start stop step).length = ((stop - start + step - 1) / step).toNat := by
  unfold pyRange
  rw [List.length_map, List.length_range]

/-- `pyRange start stop step` is non-empty whenever `start < stop` and
`step` is positive. -/
theorem pyRange_ne_nil {start stop step : ℤ} (hstep : 0 < step)
    (h : start < stop) : pyRange start stop step ≠ [] := by
  have h1 : (1 : ℤ) ≤ (stop - start + step - 1) / step := by
    rw [Int.le_ediv_iff_mul_le hstep]
    omega
  have h2 : 0 < (pyRange start stop step).length := by
    rw [pyRange_length]
    omega
  exact List.length_pos.mp h2

/-- A successful `choice` returns a member of the list. -/
theorem choice_mem_of_some {α : Type} {l : List α} {g : RNG} {a : α} {g' : RNG}
    (h : choice l g = (some a, g')) : a ∈ l := by
  unfold choice RNG.take at h
  have h1 : l.get? (g.stream g.idx % l.length) = some a :=
    congrArg Prod.fst h
  exact List.get?_mem h1

/-- `choice` on a non-empty list succeeds, with a member of the list. -/
theorem choice_isSome {α : Type} {l : List α} (hl : l ≠ []) (g : RNG) :
    ∃ a g', choice l g = (some a, g') ∧ a ∈ l := by
  have hlen : 0 < l.length := List.length_pos.mpr hl
  have hidx : g.stream g.idx % l.length < l.length := Nat.mod_lt _ hlen
  refine ⟨l.get ⟨_, hidx⟩, ⟨g.stream, g.idx + 1⟩, ?_, List.get_mem l _ hidx⟩
  simp [choice, RNG.take, List.get?_eq_get hidx]

/-- `randint lo hi` stays within `[lo, hi]` when `lo ≤ hi`. -/
theorem randint_mem {lo hi : ℤ} (h : lo ≤ hi) (g : RNG) :
    lo ≤ (randint lo hi g).1 ∧ (randint lo hi g).1 ≤ hi := by
  unfold randint RNG.take
  have h1 : (0 : ℤ) ≤ ((g.stream g.idx : ℤ)) % (hi - lo + 1) :=
    Int.emod_nonneg _ (by omega)
  have h2 : ((g.stream g.idx : ℤ)) % (hi - lo + 1) < hi - lo + 1 :=
    Int.emod_lt_of_pos _ (by omega)
  constructor <;> simp <;> omega

/-- A successfully spawned rock sits at the requested position with a radius
of the form `min_radius + ROCK_RADIUS_SIZE_STEP * k` inside
`[min_radius, max_radius)`. -/
theorem spawn_rock_spec {position : Vec} {min_radius max_radius : ℤ} {g : RNG}
    {rock : Rock} {g' : RNG}
    (h : spawn_rock position min_radius max_radius g = (some rock, g')) :
    rock.position = position ∧ min_radius ≤ rock.radius ∧
      rock.radius < max_radius ∧
      ∃ k : ℕ, rock.radius = min_radius + ROCK_RADIUS_SIZE_STEP * k := by
  unfold spawn_rock at h
  rcases hc : choice (pyRange min_radius max_radius ROCK_RADIUS_SIZE_STEP) g with ⟨o, g1⟩
  rw [hc] at h
  cases o with
  | none => simp at h
  | some radius =>
    simp only at h
    obtain ⟨hr, _⟩ := Prod.mk.injEq .. ▸ h
    have hrock : rock = ⟨position, _, radius, _⟩ := (Option.some.injEq .. ▸ hr.symm)
    have hmem : radius ∈ pyRange min_radius max_radius ROCK_RADIUS_SIZE_STEP :=
      choice_mem_of_some hc
    obtain ⟨k, hk, hlo, hhi⟩ := mem_pyRange (by norm_num [ROCK_RADIUS_SIZE_STEP]) hmem
    subst hrock
    exact ⟨rfl, hlo, hhi, k, hk⟩

/-- `spawn_rock` succeeds whenever the radius range is non-empty. -/
theorem spawn_rock_isSome (position : Vec) {min_radius max_radius : ℤ}
    (hlt : min_radius < max_radius) (g : RNG) :
    ∃ rock g', spawn_rock position min_radius max_radius g = (some rock, g') := by
  obtain ⟨a, g', hc, _⟩ :=
    @choice_isSome ℤ (pyRange min_radius max_radius ROCK_RADIUS_SIZE_STEP)
      (pyRange_ne_nil (by norm_num [ROCK_RADIUS_SIZE_STEP]) hlt) g
  unfold spawn_rock
  rw [hc]
  exact ⟨_, _, rfl⟩

/-- Rocks produced by `spawn_rock_list` all sit at the requested position with
radii of the stepped form inside `[min_radius, max_radius)`, and exactly `n`
of them are produced. -/
theorem spawn_rock_list_spec {position : Vec} {min_radius max_radius : ℤ} :
    ∀ (n : ℕ) (g : RNG) (l : List Rock) (g' : RNG),
      spawn_rock_list position min_radius max_radius n g = (some l, g') →
      l.length = n ∧ ∀ r ∈ l, r.position = position ∧ min_radius ≤ r.radius ∧
        r.radius < max_radius ∧
        ∃ k : ℕ, r.radius = min_radius + ROCK_RADIUS_SIZE_STEP * k
  | 0, g, l, g', h => by
    unfold spawn_rock_list at h
    simp only [Prod.mk.injEq, Option.some.injEq] at h
    obtain ⟨rfl, rfl⟩ := h
    simp
  | n + 1, g, l, g', h => by
    unfold spawn_rock_list at h
    rcases hs : spawn_rock position min_radius max_radius g with ⟨o, g1⟩
    rw [hs] at h
    cases o with
    | none => exact absurd (congrArg Prod.fst h) (by simp)
    | some r =>
      rcases ht : spawn_rock_list position min_radius max_radius n g1 with ⟨o2, g2⟩
      simp only [ht] at h
      cases o2 with
      | none => exact absurd (congrArg Prod.fst h) (by simp)
      | some rs =>
        simp only [Prod.mk.injEq, Option.some.injEq] at h
        obtain ⟨rfl, rfl⟩ := h
        obtain ⟨hpos, hlo, hhi, hk⟩ := spawn_rock_spec hs
        obtain ⟨hlen, hall⟩ := spawn_rock_list_spec n g1 rs g2 ht
        refine ⟨by simp [hlen], ?_⟩
        intro x hx
        rcases List.mem_cons.mp hx with hx | hx
        · subst hx
          exact ⟨hpos, hlo, hhi, hk⟩
        · exact hall x hx

/-- `spawn_rock_list` succeeds whenever the radius range is non-empty. -/
theorem spawn_rock_list_isSome (position : Vec) {min_radius max_radius : ℤ}
    (hlt : min_radius < max_radius) :
    ∀ (n : ℕ) (g : RNG),
      ∃ l g', spawn_rock_list position min_radius max_radius n g = (some l, g')
  | 0, g => ⟨[], g, rfl⟩
  | n + 1, g => by
    obtain ⟨r, g1, hs⟩ := spawn_rock_isSome position hlt g
    obtain ⟨rs, g2, ht⟩ := spawn_rock_list_isSome position hlt n g1
    refine ⟨r :: rs, g2, ?_⟩
    unfold spawn_rock_list
    simp only [hs, ht]

/-- The `spawn_rocks_explosion` fragment count is the `randint` draw between
`MIN_SPAWN_EXPLODE_ROCKS` and `MAX_SPAWN_EXPLODE_ROCKS`, so a successful call
yields 2 or 3 fragments, each at the parent's position with a stepped radius
in `[MIN_ROCK_RADIUS, parent radius)`. -/
theorem spawn_rocks_explosion_spec {rock : Rock} {g : RNG} {l : List Rock}
    {g' : RNG} (h : spawn_rocks_explosion rock g = (some l, g')) :
    (l.length = 2 ∨ l.length = 3) ∧ ∀ r ∈ l, r.position = rock.position ∧
      MIN_ROCK_RADIUS ≤ r.radius ∧ r.radius < rock.radius ∧
      ∃ k : ℕ, r.radius = MIN_ROCK_RADIUS + ROCK_RADIUS_SIZE_STEP * k := by
  have hnum := @randint_mem MIN_SPAWN_EXPLODE_ROCKS MAX_SPAWN_EXPLODE_ROCKS
    (by norm_num [MIN_SPAWN_EXPLODE_ROCKS, MAX_SPAWN_EXPLODE_ROCKS]) g
  unfold spawn_rocks_explosion at h
  rcases hr : randint MIN_SPAWN_EXPLODE_ROCKS MAX_SPAWN_EXPLODE_ROCKS g
    with ⟨num, g1⟩
  rw [hr] at h hnum
  obtain ⟨hlen, hall⟩ := spawn_rock_list_spec num.toNat g1 l g' h
  constructor
  · simp only [MIN_SPAWN_EXPLODE_ROCKS, MAX_SPAWN_EXPLODE_ROCKS] at hnum
    omega
  · intro r hrm
    exact hall r hrm

/-- `spawn_rocks_explosion` succeeds whenever the parent's radius is strictly
above the minimum. -/
theorem spawn_rocks_explosion_isSome {rock : Rock}
    (hrad : MIN_ROCK_RADIUS < rock.radius) (g : RNG) :
    ∃ l g', spawn_rocks_explosion rock g = (some l, g') := by
  unfold spawn_rocks_explosion
  rcases hr : randint MIN_SPAWN_EXPLODE_ROCKS MAX_SPAWN_EXPLODE_ROCKS g
    with ⟨num, g1⟩
  exact spawn_rock_list_isSome rock.position hrad num.toNat g1

/-- Rocks produced by the negative-X offscreen loop: count, fixed X
coordinate, stepped radius in `[MIN_ROCK_RADIUS, MAX_ROCK_RADIUS)`. -/
theorem spawn_offscreen_x_spec :
    ∀ (n : ℕ) (g : RNG) (l : List Rock) (g' : RNG),
      spawn_offscreen_x n g = (some l, g') →
      l.length = n ∧ ∀ r ∈ l, r.position.1 = -(MAX_ROCK_RADIUS : ℝ) / 2 ∧
        MIN_ROCK_RADIUS ≤ r.radius ∧ r.radius < MAX_ROCK_RADIUS ∧
        ∃ k : ℕ, r.radius = MIN_ROCK_RADIUS + ROCK_RADIUS_SIZE_STEP * k
  | 0, g, l, g', h => by
    unfold spawn_offscreen_x at h
    simp only [Prod.mk.injEq, Option.some.injEq] at h
    obtain ⟨rfl, rfl⟩ := h
    simp
  | n + 1, g, l, g', h => by
    unfold spawn_offscreen_x at h
    rcases hy : randint 0 (MAX_Y - 1) g with ⟨y_pos, g1⟩
    rw [hy] at h
    rcases hs : spawn_rock (-(MAX_ROCK_RADIUS : ℝ) / 2, (y_pos : ℝ))
        MIN_ROCK_RADIUS MAX_ROCK_RADIUS g1 with ⟨o, g2⟩
    simp only [hs] at h
    cases o with
    | none => exact absurd (congrArg Prod.fst h) (by simp)
    | some r =>
      rcases ht : spawn_offscreen_x n g2 with ⟨o2, g3⟩
      simp only [ht] at h
      cases o2 with
      | none => exact absurd (congrArg Prod.fst h) (by simp)
      | some rs =>
        simp only [Prod.mk.injEq, Option.some.injEq] at h
        obtain ⟨rfl, rfl⟩ := h
        obtain ⟨hpos, hlo, hhi, hk⟩ := spawn_rock_spec hs
        obtain ⟨hlen, hall⟩ := spawn_offscreen_x_spec n g2 rs g3 ht
        refine ⟨by simp [hlen], ?_⟩
        intro x hx
        rcases List.mem_cons.mp hx with hx | hx
        · subst hx
          exact ⟨by rw [hpos], hlo, hhi, hk⟩
        · exact hall x hx

/-- Rocks produced by the negative-Y offscreen loop: count, fixed Y
coordinate, stepped radius in `[MIN_ROCK_RADIUS, MAX_ROCK_RADIUS)`. -/
theorem spawn_offscreen_y_spec :
    ∀ (n : ℕ) (g : RNG) (l : List Rock) (g' : RNG),
      spawn_offscreen_y n g = (some l, g') →
      l.length = n ∧ ∀ r ∈ l, r.position.2 = -(MAX_ROCK_RADIUS : ℝ) / 2 ∧
        MIN_ROCK_RADIUS ≤ r.radius ∧ r.radius < MAX_ROCK_RADIUS ∧
        ∃ k : ℕ, r.radius = MIN_ROCK_RADIUS + ROCK_RADIUS_SIZE_STEP * k
  | 0, g, l, g', h => by
    unfold spawn_offscreen_y at h
    simp only [Prod.mk.injEq, Option.some.injEq] at h
    obtain ⟨rfl, rfl⟩ := h
    simp
  | n + 1, g, l, g', h => by
    unfold spawn_offscreen_y at h
    rcases hy : randint 0 (MAX_X - 1) g with ⟨x_pos, g1⟩
    rw [hy] at h
    rcases hs : spawn_rock ((x_pos : ℝ), -(MAX_ROCK_RADIUS : ℝ) / 2)
        MIN_ROCK_RADIUS MAX_ROCK_RADIUS g1 with ⟨o, g2⟩
    simp only [hs] at h
    cases o with
    | none => exact absurd (congrArg Prod.fst h) (by simp)
    | some r =>
      rcases ht : spawn_offscreen_y n g2 with ⟨o2, g3⟩
      simp only [ht] at h
      cases o2 with
      | none => exact absurd (congrArg Prod.fst h) (by simp)
      | some rs =>
        simp only [Prod.mk.injEq, Option.some.injEq] at h
        obtain ⟨rfl, rfl⟩ := h
        obtain ⟨hpos, hlo, hhi, hk⟩ := spawn_rock_spec hs
        obtain ⟨hlen, hall⟩ := spawn_offscreen_y_spec n g2 rs g3 ht
        refine ⟨by simp [hlen], ?_⟩
        intro x hx
        rcases List.mem_cons.mp hx with hx | hx
        · subst hx
          exact ⟨by rw [hpos], hlo, hhi, hk⟩
        · exact hall x hx

/-- The negative-X offscreen loop always succeeds. -/
theorem spawn_offscreen_x_isSome :
    ∀ (n : ℕ) (g : RNG), ∃ l g', spawn_offscreen_x n g = (some l, g')
  | 0, g => ⟨[], g, rfl⟩
  | n + 1, g => by
    rcases hy : randint 0 (MAX_Y - 1) g with ⟨y_pos, g1⟩
    obtain ⟨r, g2, hs⟩ := @spawn_rock_isSome
      (-(MAX_ROCK_RADIUS : ℝ) / 2, (y_pos : ℝ)) MIN_ROCK_RADIUS MAX_ROCK_RADIUS
      (by norm_num [MIN_ROCK_RADIUS, MAX_ROCK_RADIUS]) g1
    obtain ⟨rs, g3, ht⟩ := spawn_offscreen_x_isSome n g2
    refine ⟨r :: rs, g3, ?_⟩
    unfold spawn_offscreen_x
    simp only [hy, hs, ht]

/-- The negative-Y offscreen loop always succeeds. -/
theorem spawn_offscreen_y_isSome :
    ∀ (n : ℕ) (g : RNG), ∃ l g', spawn_offscreen_y n g = (some l, g')
  | 0, g => ⟨[], g, rfl⟩
  | n + 1, g => by
    rcases hx : randint 0 (MAX_X - 1) g with ⟨x_pos, g1⟩
    obtain ⟨r, g2, hs⟩ := @spawn_rock_isSome
      ((x_pos : ℝ), -(MAX_ROCK_RADIUS : ℝ) / 2) MIN_ROCK_RADIUS MAX_ROCK_RADIUS
      (by norm_num [MIN_ROCK_RADIUS, MAX_ROCK_RADIUS]) g1
    obtain ⟨rs, g3, ht⟩ := spawn_offscreen_y_isSome n g2
    refine ⟨r :: rs, g3, ?_⟩
    unfold spawn_offscreen_y
    simp only [hx, hs, ht]

/-- `spawn_offscreen_rocks` always succeeds, produces exactly `num_rocks`
rocks, the first `num_rocks / 2` on the negative-X edge and the remaining
`num_rocks - num_rocks / 2` on the negative-Y edge, all with stepped radii in
`[MIN_ROCK_RADIUS, MAX_ROCK_RADIUS)`. -/
theorem spawn_offscreen_rocks_spec (n : ℕ) (g : RNG) :
    ∃ l g', spawn_offscreen_rocks n g = (some l, g') ∧
      l.length = n ∧
      (l.take (n / 2)).length = n / 2 ∧
      (∀ r ∈ l.take (n / 2), r.position.1 = -(MAX_ROCK_RADIUS : ℝ) / 2) ∧
      (l.drop (n / 2)).length = n - n / 2 ∧
      (∀ r ∈ l.drop (n / 2), r.position.2 = -(MAX_ROCK_RADIUS : ℝ) / 2) ∧
      (∀ r ∈ l, MIN_ROCK_RADIUS ≤ r.radius ∧ r.radius < MAX_ROCK_RADIUS ∧
        ∃ k : ℕ, r.radius = MIN_ROCK_RADIUS + ROCK_RADIUS_SIZE_STEP * k) := by
  obtain ⟨xs, g1, hx⟩ := spawn_offscreen_x_isSome (n / 2) g
  obtain ⟨ys, g2, hy⟩ := spawn_offscreen_y_isSome (n - n / 2) g1
  obtain ⟨hxlen, hxall⟩ := spawn_offscreen_x_spec (n / 2) g xs g1 hx
  obtain ⟨hylen, hyall⟩ := spawn_offscreen_y_spec (n - n / 2) g1 ys g2 hy
  have heq : spawn_offscreen_rocks n g = (some (xs ++ ys), g2) := by
    unfold spawn_offscreen_rocks
    simp only [hx, hy]
  have htake : (xs ++ ys).take (n / 2) = xs := by
    rw [← hxlen, List.take_left]
  have hdrop : (xs ++ ys).drop (n / 2) = ys := by
    rw [← hxlen, List.drop_left]
  refine ⟨xs ++ ys, g2, heq, by simp [hxlen, hylen]; omega, ?_, ?_, ?_, ?_, ?_⟩
  · rw [htake, hxlen]
  · rw [htake]
    intro r hr
    exact (hxall r hr).1
  · rw [hdrop, hylen]
  · rw [hdrop]
    intro r hr
    exact (hyall r hr).1
  · intro r hr
    rcases List.mem_append.mp hr with hr | hr
    · exact (hxall r hr).2
    · exact (hyall r hr).2

/-- C6: when the live rock count `n` is below `MIN_NUM_ROCKS`, the
maintenance step spawns exactly `MIN_NUM_ROCKS - n` off-screen rocks,
bringing the count to exactly `MIN_NUM_ROCKS`; the first
`(MIN_NUM_ROCKS - n) / 2` spawned rocks sit on the negative-X edge and the
remaining, including the extra one when the spawn count is odd, on the
negative-Y edge. -/
theorem maintain_rocks_tops_up (rocks : List Rock) (g : RNG)
    (h : rocks.length < MIN_NUM_ROCKS) :
    ∃ newRocks g',
      spawn_offscreen_rocks (MIN_NUM_ROCKS - rocks.length) g = (some newRocks, g') ∧
      maintain_rocks rocks g = (some (rocks ++ newRocks), g') ∧
      newRocks.length = MIN_NUM_ROCKS - rocks.length ∧
      (rocks ++ newRocks).length = MIN_NUM_ROCKS ∧
      (newRocks.take ((MIN_NUM_ROCKS - rocks.length) / 2)).length =
        (MIN_NUM_ROCKS - rocks.length) / 2 ∧
      (∀ r ∈ newRocks.take ((MIN_NUM_ROCKS - rocks.length) / 2),
        r.position.1 = -(MAX_ROCK_RADIUS : ℝ) / 2) ∧
      (newRocks.drop ((MIN_NUM_ROCKS - rocks.length) / 2)).length =
        MIN_NUM_ROCKS - rocks.length - (MIN_NUM_ROCKS - rocks.length) / 2 ∧
      (∀ r ∈ newRocks.drop ((MIN_NUM_ROCKS - rocks.length) / 2),
        r.position.2 = -(MAX_ROCK_RADIUS : ℝ) / 2) := by
  obtain ⟨l, g', heq, hlen, htl, hta, hdl, hda, _⟩ :=
    spawn_offscreen_rocks_spec (MIN_NUM_ROCKS - rocks.length) g
  refine ⟨l, g', heq, ?_, hlen, ?_, htl, hta, hdl, hda⟩
  · unfold maintain_rocks
    rw [if_pos h, heq]
  · simp [hlen]
    omega

/-- Witness for C6: starting from zero live rocks, one maintenance step
spawns five rocks, two on the negative-X edge and three on the negative-Y
edge. -/
theorem maintain_rocks_tops_up_witness :
    ([] : List Rock).length < MIN_NUM_ROCKS ∧
    ∃ newRocks g',
      spawn_offscreen_rocks (MIN_NUM_ROCKS - ([] : List Rock).length)
        ⟨fun _ => 0, 0⟩ = (some newRocks, g') ∧
      maintain_rocks [] ⟨fun _ => 0, 0⟩ = (some ([] ++ newRocks), g') ∧
      newRocks.length = MIN_NUM_ROCKS - ([] : List Rock).length ∧
      (([] : List Rock) ++ newRocks).length = MIN_NUM_ROCKS ∧
      (newRocks.take ((MIN_NUM_ROCKS - ([] : List Rock).length) / 2)).length =
        (MIN_NUM_ROCKS - ([] : List Rock).length) / 2 ∧
      (∀ r ∈ newRocks.take ((MIN_NUM_ROCKS - ([] : List Rock).length) / 2),
        r.position.1 = -(MAX_ROCK_RADIUS : ℝ) / 2) ∧
      (newRocks.drop ((MIN_NUM_ROCKS - ([] : List Rock).length) / 2)).length =
        MIN_NUM_ROCKS - ([] : List Rock).length -
          (MIN_NUM_ROCKS - ([] : List Rock).length) / 2 ∧
      (∀ r ∈ newRocks.drop ((MIN_NUM_ROCKS - ([] : List Rock).length) / 2),
        r.position.2 = -(MAX_ROCK_RADIUS : ℝ) / 2) :=
  ⟨by decide, maintain_rocks_tops_up [] ⟨fun _ => 0, 0⟩ (by decide)⟩

/-- Fragmenting a rock whose radius equals the minimum makes `spawn_rock`
call `choice` on the empty range `range(20, 20, 10)`, so the whole call
fails (Python raises `IndexError`) instead of returning an empty list. -/
theorem spawn_rocks_explosion_none_at_min (rock : Rock)
    (hrad : rock.radius = MIN_ROCK_RADIUS) (g : RNG) :
    (spawn_rocks_explosion rock g).1 = none := by
  have hnum := @randint_mem MIN_SPAWN_EXPLODE_ROCKS MAX_SPAWN_EXPLODE_ROCKS
    (by norm_num [MIN_SPAWN_EXPLODE_ROCKS, MAX_SPAWN_EXPLODE_ROCKS]) g
  unfold spawn_rocks_explosion
  rcases hr : randint MIN_SPAWN_EXPLODE_ROCKS MAX_SPAWN_EXPLODE_ROCKS g
    with ⟨num, g1⟩
  rw [hr] at hnum
  simp only
  obtain ⟨m, hm⟩ : ∃ m, num.toNat = m + 1 := by
    simp only [MIN_SPAWN_EXPLODE_ROCKS] at hnum
    exact ⟨num.toNat - 1, by omega⟩
  rw [hm]
  unfold spawn_rock_list
  have hempty : pyRange MIN_ROCK_RADIUS rock.radius ROCK_RADIUS_SIZE_STEP = [] := by
    rw [hrad]
    decide
  have hsr : spawn_rock rock.position MIN_ROCK_RADIUS rock.radius g1 =
      (none, ⟨g1.stream, g1.idx + 1⟩) := by
    unfold spawn_rock
    rw [hempty]
    simp [choice, RNG.take]
  rw [hsr]

/-- C2: counterexample.  Fragmenting a minimum-radius rock does NOT produce
zero fragments: the call fails outright (`none`, Python `IndexError` from
`choice` on the empty stepped range), so its result is not the empty
fragment list. -/
theorem spawn_rocks_explosion_min_radius_fails :
    (spawn_rocks_explosion rockMin gZero).1 = none ∧
    (spawn_rocks_explosion rockMin gZero).1 ≠ some [] := by
  have h := spawn_rocks_explosion_none_at_min rockMin rfl gZero
  refine ⟨h, ?_⟩
  rw [h]
  simp

/-- C2 (amended): fragmenting a rock with radius strictly above the minimum
produces 2 or 3 fragments, each positioned at the parent's position with
radius in `[MIN_ROCK_RADIUS, parent radius)`; at exactly the minimum radius
the fragment call errors (empty radius range) rather than returning an empty
list, and the game loop never invokes it there. -/
theorem spawn_rocks_explosion_fragments (rock : Rock) (g : RNG)
    (h : MIN_ROCK_RADIUS < rock.radius) :
    ∃ l g', spawn_rocks_explosion rock g = (some l, g') ∧
      (l.length = 2 ∨ l.length = 3) ∧
      ∀ r ∈ l, r.position = rock.position ∧
        MIN_ROCK_RADIUS ≤ r.radius ∧ r.radius < rock.radius := by
  obtain ⟨l, g', heq⟩ := spawn_rocks_explosion_isSome h g
  obtain ⟨hlen, hall⟩ := spawn_rocks_explosion_spec heq
  exact ⟨l, g', heq, hlen, fun r hr =>
    ⟨(hall r hr).1, (hall r hr).2.1, (hall r hr).2.2.1⟩⟩

/-- Witness for C2 (amended) at a radius-40 parent rock. -/
theorem spawn_rocks_explosion_fragments_witness :
    MIN_ROCK_RADIUS < rockForty.radius ∧
    ∃ l g', spawn_rocks_explosion rockForty gZero = (some l, g') ∧
      (l.length = 2 ∨ l.length = 3) ∧
      ∀ r ∈ l, r.position = rockForty.position ∧
        MIN_ROCK_RADIUS ≤ r.radius ∧ r.radius < rockForty.radius :=
  ⟨by decide, spawn_rocks_explosion_fragments rockForty gZero (by decide)⟩

/-- C9: every rock the spawner ever creates has a stepped radius: a
successful `spawn_rock` returns `min_radius + ROCK_RADIUS_SIZE_STEP * k`
strictly below the `max_radius` bound it was passed; off-screen rocks have
stepped radii strictly below `MAX_ROCK_RADIUS` (so never equal to it, the
largest attainable being `MAX_ROCK_RADIUS - ROCK_RADIUS_SIZE_STEP`); and
fragants have stepped radii strictly below the parent's radius. -/
theorem spawn_radius_stepped_below_bound :
    (∀ (position : Vec) (min_radius max_radius : ℤ) (g : RNG) (rock : Rock)
      (g' : RNG),
      spawn_rock position min_radius max_radius g = (some rock, g') →
      ∃ k : ℕ, rock.radius = min_radius + ROCK_RADIUS_SIZE_STEP * k ∧
        rock.radius < max_radius) ∧
    (∀ (n : ℕ) (g : RNG) (l : List Rock) (g' : RNG),
      spawn_offscreen_rocks n g = (some l, g') →
      ∀ r ∈ l, (∃ k : ℕ, r.radius = MIN_ROCK_RADIUS + ROCK_RADIUS_SIZE_STEP * k) ∧
        r.radius < MAX_ROCK_RADIUS ∧ r.radius ≠ MAX_ROCK_RADIUS ∧
        r.radius ≤ MAX_ROCK_RADIUS - ROCK_RADIUS_SIZE_STEP) ∧
    (∀ (parent : Rock) (g : RNG) (l : List Rock) (g' : RNG),
      spawn_rocks_explosion parent g = (some l, g') →
      ∀ r ∈ l, (∃ k : ℕ, r.radius = MIN_ROCK_RADIUS + ROCK_RADIUS_SIZE_STEP * k) ∧
        r.radius < parent.radius) := by
  refine ⟨?_, ?_, ?_⟩
  · intro position min_radius max_radius g rock g' h
    obtain ⟨_, _, hhi, k, hk⟩ := spawn_rock_spec h
    exact ⟨k, hk, hhi⟩
  · intro n g l g' h
    obtain ⟨l0, g0, heq, _, _, _, _, _, hall⟩ := spawn_offscreen_rocks_spec n g
    rw [h] at heq
    simp only [Prod.mk.injEq, Option.some.injEq] at heq
    obtain ⟨rfl, rfl⟩ := heq
    intro r hr
    obtain ⟨hlo, hhi, k, hk⟩ := hall r hr
    refine ⟨⟨k, hk⟩, hhi, ?_, ?_⟩ <;>
      simp only [MIN_ROCK_RADIUS, MAX_ROCK_RADIUS, ROCK_RADIUS_SIZE_STEP] at hk hhi ⊢ <;>
      omega
  · intro parent g l g' h
    intro r hr
    obtain ⟨_, _, hhi, k, hk⟩ := (spawn_rocks_explosion_spec h).2 r hr
    exact ⟨⟨k, hk⟩, hhi⟩

/-- Witness for C9 at a concrete spawn with the full radius range. -/
theorem spawn_radius_stepped_below_bound_witness :
    ∃ rock g',
      spawn_rock (0, 0) MIN_ROCK_RADIUS MAX_ROCK_RADIUS gZero = (some rock, g') ∧
      ∃ k : ℕ, rock.radius = MIN_ROCK_RADIUS + ROCK_RADIUS_SIZE_STEP * k ∧
        rock.radius < MAX_ROCK_RADIUS := by
  obtain ⟨rock, g', heq⟩ := @spawn_rock_isSome (0, 0) MIN_ROCK_RADIUS
    MAX_ROCK_RADIUS (by norm_num [MIN_ROCK_RADIUS, MAX_ROCK_RADIUS]) gZero
  exact ⟨rock, g', heq,
    spawn_radius_stepped_below_bound.1 (0, 0) _ _ gZero rock g' heq⟩

/-- `moveWrap` is plain vector addition while the result stays inside the
arena. -/
theorem moveWrap_id {px py vx vy : ℝ} (h1 : 0 ≤ px + vx)
    (h2 : px + vx < (MAX_X : ℝ)) (h3 : 0 ≤ py + vy)
    (h4 : py + vy < (MAX_Y : ℝ)) :
    moveWrap (px, py) (vx, vy) = (px + vx, py + vy) := by
  have hx1 : ¬ (px + vx ≥ (MAX_X : ℝ)) := by linarith
  have hx2 : ¬ (px + vx < 0) := by linarith
  have hy1 : ¬ (py + vy ≥ (MAX_Y : ℝ)) := by linarith
  have hy2 : ¬ (py + vy < 0) := by linarith
  simp [moveWrap, Prod.fst_add, Prod.snd_add, hx1, hx2, hy1, hy2]

/-- C7: `score_hit radius` equals `2 * MAX_ROCK_RADIUS - radius`; it is
strictly decreasing in the radius over `[MIN_ROCK_RADIUS, MAX_ROCK_RADIUS]`,
and strictly positive for every radius at most `MAX_ROCK_RADIUS`. -/
theorem score_hit_formula_decreasing_positive :
    (∀ radius : ℤ, score_hit radius = 2 * MAX_ROCK_RADIUS - radius) ∧
    (∀ r1 r2 : ℤ, MIN_ROCK_RADIUS ≤ r1 → r1 < r2 → r2 ≤ MAX_ROCK_RADIUS →
      score_hit r2 < score_hit r1) ∧
    (∀ radius : ℤ, radius ≤ MAX_ROCK_RADIUS → 0 < score_hit radius) := by
  refine ⟨fun radius => ?_, fun r1 r2 h1 h2 h3 => ?_, fun radius h => ?_⟩
  · simp [score_hit]; ring
  · simp only [score_hit, MAX_ROCK_RADIUS]
    omega
  · simp only [score_hit, MAX_ROCK_RADIUS] at *
    omega

/-- Witness for the strict-decrease and positivity parts of C7 at radii 20 and
30. -/
theorem score_hit_formula_decreasing_positive_witness :
    (MIN_ROCK_RADIUS ≤ (20 : ℤ) ∧ (20 : ℤ) < 30 ∧ (30 : ℤ) ≤ MAX_ROCK_RADIUS ∧
      score_hit 30 < score_hit 20) ∧ ((20 : ℤ) ≤ MAX_ROCK_RADIUS ∧ 0 < score_hit 20) :=
  ⟨⟨by decide, by decide, by decide,
      score_hit_formula_decreasing_positive.2.1 20 30 (by decide) (by decide) (by decide)⟩,
    by decide, score_hit_formula_decreasing_positive.2.2 20 (by decide)⟩

/-- C8: a bullet is alive exactly when its age is at most `MAX_BULLET_AGE`;
in particular a bullet whose age equals `MAX_BULLET_AGE` is alive and one at
`MAX_BULLET_AGE + 1` is not. -/
theorem bullet_alive_iff_age_le_max :
    (∀ b : Bullet, b.alive = true ↔ b.age ≤ MAX_BULLET_AGE) ∧
    (∀ b : Bullet, b.age = MAX_BULLET_AGE → b.alive = true) ∧
    (∀ b : Bullet, b.age = MAX_BULLET_AGE + 1 → b.alive = false) := by
  refine ⟨fun b => ?_, fun b h => ?_, fun b h => ?_⟩ <;>
    simp [Bullet.alive] <;> omega

/-- Witness for C8 at bullets of age `MAX_BULLET_AGE` and
`MAX_BULLET_AGE + 1`. -/
theorem bullet_alive_iff_age_le_max_witness :
    Bullet.alive ⟨(0, 0), (15, 0), (1, 0), MAX_BULLET_AGE⟩ = true ∧
    Bullet.alive ⟨(0, 0), (15, 0), (1, 0), MAX_BULLET_AGE + 1⟩ = false :=
  ⟨bullet_alive_iff_age_le_max.2.1 ⟨(0, 0), (15, 0), (1, 0), MAX_BULLET_AGE⟩ rfl,
    bullet_alive_iff_age_le_max.2.2 ⟨(0, 0), (15, 0), (1, 0), MAX_BULLET_AGE + 1⟩ rfl⟩

/-- Once the `hit` flag is set, the rest of the scan keeps every rock, the
score and the staged rocks, and consumes no randomness. -/
theorem rockScan_hit_true (bullet : Bullet) :
    ∀ (l : List Rock) (score : ℤ) (spawned : List Rock) (g : RNG),
      rockScan bullet l true score spawned g = (some (l, true, score, spawned), g)
  | [], score, spawned, g => rfl
  | rock :: rest, score, spawned, g => by
    unfold rockScan
    rw [if_neg (by simp)]
    rw [rockScan_hit_true bullet rest score spawned g]

/-- A scan in which the bullet hits no rock keeps every rock, the score and
the staged rocks, leaves the flag clear, and consumes no randomness. -/
theorem rockScan_all_miss (bullet : Bullet) :
    ∀ (l : List Rock) (score : ℤ) (spawned : List Rock) (g : RNG),
      (∀ r ∈ l, ¬ bullet_hit_rock bullet r) →
      rockScan bullet l false score spawned g = (some (l, false, score, spawned), g)
  | [], _, _, _, _ => rfl
  | rock :: rest, score, spawned, g, h => by
    unfold rockScan
    rw [if_neg (by simp [h rock (List.mem_cons_self rock rest)])]
    rw [rockScan_all_miss bullet rest score spawned g
      (fun r hr => h r (List.mem_cons_of_mem rock hr))]

/-- A scan whose first hit is the rock `r` after the miss prefix `pre`:
`r` is scored once and removed, all other rocks stay in order, fragments are
staged exactly when `r` is above the minimum radius, and the flag is set. -/
theorem rockScan_first_hit (bullet : Bullet) :
    ∀ (pre : List Rock) (r : Rock) (post : List Rock) (score : ℤ)
      (spawned : List Rock) (g : RNG),
      (∀ x ∈ pre, ¬ bullet_hit_rock bullet x) →
      bullet_hit_rock bullet r →
      ∃ frags g',
        (r.radius > MIN_ROCK_RADIUS →
          spawn_rocks_explosion r g = (some frags, g')) ∧
        (¬ r.radius > MIN_ROCK_RADIUS → frags = [] ∧ g' = g) ∧
        rockScan bullet (pre ++ r :: post) false score spawned g =
          (some (pre ++ post, true, score + score_hit r.radius,
            spawned ++ frags), g')
  | [], r, post, score, spawned, g, _, hr => by
    simp only [List.nil_append]
    by_cases hrad : r.radius > MIN_ROCK_RADIUS
    · obtain ⟨frags, g', hs⟩ := spawn_rocks_explosion_isSome hrad g
      refine ⟨frags, g', fun _ => hs, fun hc => absurd hrad hc, ?_⟩
      unfold rockScan
      rw [if_pos ⟨by simp, hr⟩, if_pos hrad]
      simp only [hs, rockScan_hit_true]
    · refine ⟨[], g, fun hc => absurd hc hrad, fun _ => ⟨rfl, rfl⟩, ?_⟩
      unfold rockScan
      rw [if_pos ⟨by simp, hr⟩, if_neg hrad]
      simp only [rockScan_hit_true]
      simp
  | rp :: pre, r, post, score, spawned, g, hpre, hr => by
    obtain ⟨frags, g', h1, h2, h3⟩ :=
      rockScan_first_hit bullet pre r post score spawned g
        (fun x hx => hpre x (List.mem_cons_of_mem rp hx)) hr
    refine ⟨frags, g', h1, h2, ?_⟩
    rw [List.cons_append]
    unfold rockScan
    rw [if_neg (by simp [hpre rp (List.mem_cons_self rp pre)])]
    simp only [h3]
    simp

/-- C3: one live bullet's pass: the bullet is aged, moved, then tested
against the live rocks in order.  If a first matching rock exists it is the
only hit: the score grows by exactly that rock's score value, the rock is
removed from the live list (all others retained in order), fragments are
staged exactly when its radius exceeds the minimum, and the bullet is not
retained.  A bullet that hits nothing changes nothing and is retained,
moved. -/
theorem processBullet_moves_then_first_hit (g : RNG) (b : Bullet)
    (halive : (b.time_step).alive = true) :
    (∀ (s : FrameState) (pre post : List Rock) (r : Rock),
      s.rocks = pre ++ r :: post →
      (∀ x ∈ pre, ¬ bullet_hit_rock (b.time_step.move) x) →
      bullet_hit_rock (b.time_step.move) r →
      ∃ frags g',
        (r.radius > MIN_ROCK_RADIUS →
          spawn_rocks_explosion r g = (some frags, g')) ∧
        (¬ r.radius > MIN_ROCK_RADIUS → frags = [] ∧ g' = g) ∧
        processBullet s b g =
          (some ⟨s.score + score_hit r.radius, pre ++ post,
            s.spawned_rocks ++ frags, s.alive_bullets⟩, g')) ∧
    (∀ s : FrameState,
      (∀ x ∈ s.rocks, ¬ bullet_hit_rock (b.time_step.move) x) →
      processBullet s b g =
        (some ⟨s.score, s.rocks, s.spawned_rocks,
          s.alive_bullets ++ [b.time_step.move]⟩, g)) := by
  constructor
  · intro s pre post r hsr hpre hr
    obtain ⟨frags, g', h1, h2, h3⟩ :=
      rockScan_first_hit (b.time_step.move) pre r post s.score
        s.spawned_rocks g hpre hr
    refine ⟨frags, g', h1, h2, ?_⟩
    unfold processBullet
    rw [if_pos halive, hsr]
    simp only [h3]
    simp
  · intro s hmiss
    unfold processBullet
    rw [if_pos halive]
    simp only [rockScan_all_miss (b.time_step.move) s.rocks s.score
      s.spawned_rocks g hmiss]
    simp

/-- `sumScores` distributes over cons. -/
theorem sumScores_cons (r : Rock) (l : List Rock) :
    sumScores (r :: l) = score_hit r.radius + sumScores l := by
  simp [sumScores]

/-- The rocks surviving one bullet's scan form a sublist of the input rocks,
and the score grows by exactly the total score value of the removed rocks. -/
theorem rockScan_sublist_score (bullet : Bullet) :
    ∀ (l : List Rock) (hit : Bool) (score : ℤ) (spawned : List Rock) (g : RNG)
      {alive : List Rock} {h2 : Bool} {s2 : ℤ} {sp2 : List Rock} {g2 : RNG},
      rockScan bullet l hit score spawned g = (some (alive, h2, s2, sp2), g2) →
      alive.Sublist l ∧ s2 = score + sumScores l - sumScores alive
  | [], hit, score, spawned, g, alive, h2, s2, sp2, g2, h => by
    unfold rockScan at h
    simp only [Prod.mk.injEq, Option.some.injEq] at h
    obtain ⟨⟨rfl, rfl, rfl, rfl⟩, rfl⟩ := h
    exact ⟨List.Sublist.refl _, by ring⟩
  | rock :: rest, hit, score, spawned, g, alive, h2, s2, sp2, g2, h => by
    unfold rockScan at h
    by_cases hcond : ¬(hit : Prop) ∧ bullet_hit_rock bullet rock
    · rw [if_pos hcond] at h
      by_cases hrad : rock.radius > MIN_ROCK_RADIUS
      · rw [if_pos hrad] at h
        rcases hs : spawn_rocks_explosion rock g with ⟨o, g1⟩
        rw [hs] at h
        cases o with
        | none => simp at h
        | some frags =>
          simp only at h
          rcases ht : rockScan bullet rest true (score + score_hit rock.radius)
            (spawned ++ frags) g1 with ⟨o2, gm⟩
          rw [ht] at h
          cases o2 with
          | none => simp at h
          | some out =>
            rcases out with ⟨alive9, h9, s9, sp9⟩
            simp only [Prod.mk.injEq, Option.some.injEq] at h
            obtain ⟨⟨rfl, rfl, rfl, rfl⟩, rfl⟩ := h
            obtain ⟨hsub, hsc⟩ := rockScan_sublist_score bullet rest true
              (score + score_hit rock.radius) (spawned ++ frags) g1 ht
            refine ⟨hsub.cons rock, ?_⟩
            rw [sumScores_cons]
            omega
      · rw [if_neg hrad] at h
        rcases ht : rockScan bullet rest true (score + score_hit rock.radius)
          spawned g with ⟨o2, gm⟩
        rw [ht] at h
        cases o2 with
        | none => simp at h
        | some out =>
          rcases out with ⟨alive9, h9, s9, sp9⟩
          simp only [Prod.mk.injEq, Option.some.injEq] at h
          obtain ⟨⟨rfl, rfl, rfl, rfl⟩, rfl⟩ := h
          obtain ⟨hsub, hsc⟩ := rockScan_sublist_score bullet rest true
            (score + score_hit rock.radius) spawned g ht
          refine ⟨hsub.cons rock, ?_⟩
          rw [sumScores_cons]
          omega
    · rw [if_neg hcond] at h
      rcases ht : rockScan bullet rest hit score spawned g with ⟨o2, gm⟩
      rw [ht] at h
      cases o2 with
      | none => simp at h
      | some out =>
        rcases out with ⟨alive9, h9, s9, sp9⟩
        simp only [Prod.mk.injEq, Option.some.injEq] at h
        obtain ⟨⟨rfl, rfl, rfl, rfl⟩, rfl⟩ := h
        obtain ⟨hsub, hsc⟩ := rockScan_sublist_score bullet rest hit
          score spawned g ht
        refine ⟨hsub.cons₂ rock, ?_⟩
        rw [sumScores_cons, sumScores_cons]
        omega

/-- One bullet's processing never duplicates a rock: the surviving rocks are
a sublist of the input rocks and the score grows by exactly the removed
rocks' total value. -/
theorem processBullet_sublist_score {s : FrameState} {b : Bullet} {g : RNG}
    {s1 : FrameState} {g1 : RNG}
    (h : processBullet s b g = (some s1, g1)) :
    s1.rocks.Sublist s.rocks ∧
    s1.score = s.score + sumScores s.rocks - sumScores s1.rocks := by
  unfold processBullet at h
  split at h
  · rcases ht : rockScan (b.time_step.move) s.rocks false s.score
      s.spawned_rocks g with ⟨o, gm⟩
    rw [ht] at h
    cases o with
    | none => simp at h
    | some out =>
      rcases out with ⟨alive9, h9, s9, sp9⟩
      simp only [Prod.mk.injEq, Option.some.injEq] at h
      obtain ⟨rfl, rfl⟩ := h
      obtain ⟨hsub, hsc⟩ := rockScan_sublist_score (b.time_step.move) s.rocks
        false s.score s.spawned_rocks g ht
      exact ⟨hsub, by rw [hsc]⟩
  · simp only [Prod.mk.injEq, Option.some.injEq] at h
    obtain ⟨rfl, rfl⟩ := h
    exact ⟨List.Sublist.refl _, by ring⟩

/-- C10: over the whole bullet pass, the surviving rocks are a sublist of
the frame's starting rocks — a rock removed by one bullet is not seen by
later bullets — and the score grows by exactly the total score value of the
removed rocks, so each destroyed rock is scored exactly once. -/
theorem bulletLoop_destroys_each_rock_once :
    ∀ (bullets : List Bullet) (s : FrameState) (g : RNG) (s1 : FrameState)
      (g1 : RNG),
      bulletLoop s bullets g = (some s1, g1) →
      s1.rocks.Sublist s.rocks ∧
      s1.score = s.score + sumScores s.rocks - sumScores s1.rocks
  | [], s, g, s1, g1, h => by
    unfold bulletLoop at h
    simp only [Prod.mk.injEq, Option.some.injEq] at h
    obtain ⟨rfl, rfl⟩ := h
    exact ⟨List.Sublist.refl _, by ring⟩
  | b :: bs, s, g, s1, g1, h => by
    unfold bulletLoop at h
    rcases hp : processBullet s b g with ⟨o, gm⟩
    rw [hp] at h
    cases o with
    | none => simp at h
    | some smid =>
      obtain ⟨hsub1, hsc1⟩ := processBullet_sublist_score hp
      obtain ⟨hsub2, hsc2⟩ :=
        bulletLoop_destroys_each_rock_once bs smid gm s1 g1 h
      exact ⟨hsub2.trans hsub1, by omega⟩

/-- C5: in the rock phase, on the first rock whose move collides with the
ship the loop returns the current score immediately: rocks before it are
moved and retained, the colliding rock is moved, and the rocks after it are
left unmoved. -/
theorem rockPhase_first_collision_ends (ship : SpaceShip) (score : ℤ) :
    ∀ (pre : List Rock) (r : Rock) (post : List Rock),
      (∀ x ∈ pre, ¬ ship_hit_rock ship x.move) →
      ship_hit_rock ship r.move →
      rockPhase ship score (pre ++ r :: post) =
        (pre.map Rock.move ++ r.move :: post, some score)
  | [], r, post, _, hr => by
    simp only [List.nil_append, List.map_nil]
    unfold rockPhase
    rw [if_pos hr]
  | rp :: pre, r, post, hpre, hr => by
    have ih := rockPhase_first_collision_ends ship score pre r post
      (fun x hx => hpre x (List.mem_cons_of_mem rp hx)) hr
    rw [List.cons_append]
    unfold rockPhase
    rw [if_neg (hpre rp (List.mem_cons_self rp pre))]
    rw [ih]
    simp

/-- Rotating the zero vector gives the zero vector. -/
theorem rotateDeg_zero_vec (θ : ℝ) : rotateDeg (0, 0) θ = (0, 0) := by
  simp [rotateDeg]

/-- The witness bullet, aged and moved, sits at `(115, 300)`. -/
theorem bulletW_moved :
    bulletW.time_step.move = ⟨(115, 300), (15, 0), (1, 0), 1⟩ := by
  simp only [bulletW, Bullet.time_step, Bullet.move]
  rw [moveWrap_id (by norm_num) (by norm_num [MAX_X]) (by norm_num)
    (by norm_num [MAX_Y])]
  norm_num

/-- The moved witness bullet's tip lands exactly on `rockHitW`'s center. -/
theorem bulletW_hits_rockHitW :
    bullet_hit_rock (bulletW.time_step.move) rockHitW := by
  rw [bulletW_moved]
  simp only [bullet_hit_rock, rockHitW, smul]
  rw [is_inside_circle_iff_sq _ _ _ (by norm_num)]
  norm_num [BULLET_LENGTH, Prod.mk_add_mk]

/-- The moved witness bullet's tip is 50 units from `rockMissW`'s center. -/
theorem bulletW_misses_rockMissW :
    ¬ bullet_hit_rock (bulletW.time_step.move) rockMissW := by
  rw [bulletW_moved]
  simp only [bullet_hit_rock, rockMissW, smul]
  rw [is_inside_circle_iff_sq _ _ _ (by norm_num)]
  norm_num [BULLET_LENGTH, Prod.mk_add_mk]

/-- Witness for C3: in `frameW` the live witness bullet misses `rockMissW`,
hits `rockHitW` (scoring it once, removing it, staging no fragments since it
is minimum-size) and is itself dropped; in `frameMissW` it hits nothing and
is retained, moved. -/
theorem processBullet_moves_then_first_hit_witness :
    (bulletW.time_step).alive = true ∧
    (∃ frags g',
      (rockHitW.radius > MIN_ROCK_RADIUS →
        spawn_rocks_explosion rockHitW gZero = (some frags, g')) ∧
      (¬ rockHitW.radius > MIN_ROCK_RADIUS → frags = [] ∧ g' = gZero) ∧
      processBullet frameW bulletW gZero =
        (some ⟨frameW.score + score_hit rockHitW.radius, [rockMissW] ++ [],
          frameW.spawned_rocks ++ frags, frameW.alive_bullets⟩, g')) ∧
    processBullet frameMissW bulletW gZero =
      (some ⟨frameMissW.score, frameMissW.rocks, frameMissW.spawned_rocks,
        frameMissW.alive_bullets ++ [bulletW.time_step.move]⟩, gZero) :=
  ⟨by decide,
   (processBullet_moves_then_first_hit gZero bulletW (by decide)).1 frameW
      [rockMissW] [] rockHitW rfl
      (fun x hx => by
        rw [List.mem_singleton] at hx
        subst hx
        exact bulletW_misses_rockMissW)
      bulletW_hits_rockHitW,
   (processBullet_moves_then_first_hit gZero bulletW (by decide)).2 frameMissW
      (fun x hx => by
        rw [frameMissW, List.mem_singleton] at hx
        subst hx
        exact bulletW_misses_rockMissW)⟩

/-- Running the bullet pass on one expired bullet leaves the frame
unchanged. -/
theorem bulletLoop_expired_eval :
    bulletLoop frameTen [bulletOld] gZero = (some frameTen, gZero) := by
  have hdead : ¬ ((bulletOld.time_step).alive = true) := by decide
  unfold bulletLoop processBullet
  rw [if_neg hdead]
  rfl

/-- Witness for C10 at the one-expired-bullet frame. -/
theorem bulletLoop_destroys_each_rock_once_witness :
    frameTen.rocks.Sublist frameTen.rocks ∧
    frameTen.score = frameTen.score + sumScores frameTen.rocks -
      sumScores frameTen.rocks :=
  bulletLoop_destroys_each_rock_once [bulletOld] frameTen gZero frameTen
    gZero bulletLoop_expired_eval

/-- All three corners of the zero-size witness ship coincide with its
position. -/
theorem shipW_points :
    shipW.points = ((400, 300), (400, 300), (400, 300)) := by
  simp [SpaceShip.points, shipW, rotateDeg, Prod.mk_add_mk]

/-- The motionless rock at the ship's position does not move. -/
theorem rockAtShip_move : rockAtShip.move = rockAtShip := by
  simp only [Rock.move, rockAtShip]
  rw [moveWrap_id (by norm_num) (by norm_num [MAX_X]) (by norm_num)
    (by norm_num [MAX_Y])]
  norm_num

/-- The motionless far rock does not move. -/
theorem rockFarW_move : rockFarW.move = rockFarW := by
  simp only [Rock.move, rockFarW]
  rw [moveWrap_id (by norm_num) (by norm_num [MAX_X]) (by norm_num)
    (by norm_num [MAX_Y])]
  norm_num

/-- The witness ship collides with the moved rock lying on its position. -/
theorem shipW_hits_rockAtShip : ship_hit_rock shipW rockAtShip.move := by
  rw [rockAtShip_move]
  unfold ship_hit_rock
  rw [shipW_points]
  left
  rw [is_inside_circle_iff_sq _ _ _ (by norm_num [rockAtShip])]
  norm_num [rockAtShip]

/-- The witness ship does not collide with the moved far rock. -/
theorem shipW_misses_rockFarW : ¬ ship_hit_rock shipW rockFarW.move := by
  rw [rockFarW_move]
  unfold ship_hit_rock
  rw [shipW_points]
  simp only [rockFarW]
  rw [is_inside_circle_iff_sq _ _ _ (by norm_num)]
  norm_num

/-- Witness for C5: with rocks `[rockFarW, rockAtShip, rockPostW]`, the far
rock is moved and kept, the rock on the ship ends the round with the current
score 0, and `rockPostW` is left unmoved. -/
theorem rockPhase_first_collision_ends_witness :
    rockPhase shipW 0 ([rockFarW] ++ rockAtShip :: [rockPostW]) =
      ([rockFarW].map Rock.move ++ rockAtShip.move :: [rockPostW], some 0) :=
  rockPhase_first_collision_ends shipW 0 [rockFarW] rockAtShip [rockPostW]
    (fun x hx => by
      rw [List.mem_singleton] at hx
      subst hx
      exact shipW_misses_rockFarW)
    shipW_hits_rockAtShip

end Asteroids
